import Mathlib

/-!
Verification development for the cp-bot Discord verification bot.

The definitions below are a shallow embedding of the TypeScript source:

* `src/utils/time.ts` — `isExpired`, `getRemainingTime`, `isSubmissionAfterStart`;
* `src/services/codeforces.service.ts` — `checkCompilationErrorSubmission`;
* `src/commands/verify.ts` — the per-pending-session loop of `execute`
  and `parseCodeforcesProblemId`;
* `src/services/supabase.ts` — `createPendingVerification` (delete-then-insert);
* `src/utils/randomProblem.ts` — `fetchCodeforcesProblems`, `getRandomCodeforcesProblem`;
* `src/utils/roleManager.ts` — `assignVerifiedRole`, `assignRankRole`,
  `assignVerificationRoles`;
* `src/utils/roleSync.ts` — `syncAllRoles`.

Timestamps are modelled as epoch milliseconds (`Nat`), matching the
JavaScript `Date.getTime()` representation; Codeforces submission creation
times are epoch seconds, as delivered by the upstream API.  Network and
database effects are abstracted as explicit oracles (`Except`-valued
parameters), so that the pure control flow of each function is embedded
faithfully.
-/

/-- A Codeforces submission as mapped by `getRecentSubmissions`:
`verdict` is optional in the upstream payload. -/
structure Submission where
  id : Nat
  contestId : Nat
  problemIndex : String
  problemName : String
  verdict : Option String
  creationTimeSeconds : Nat
  programmingLanguage : String
deriving DecidableEq

/-- Result record returned by `checkCompilationErrorSubmission`
(`VerificationResult` in `types.ts`). -/
structure VerificationResult where
  verified : Bool
  submission : Option Submission
  message : String
deriving DecidableEq

/-- `time.ts` `isExpired`: `new Date() > expiration`, strict comparison of
millisecond timestamps.  The implicit current time is passed explicitly. -/
def isExpired (nowMs expiresAtMs : Nat) : Bool :=
  expiresAtMs < nowMs

/-- `time.ts` `getRemainingTime`: whole minutes and seconds until expiry,
or the literal string `Expired` when the difference is not positive. -/
def getRemainingTime (nowMs expiresAtMs : Nat) : String :=
  if expiresAtMs ≤ nowMs then "Expired"
  else
    let diff := expiresAtMs - nowMs
    toString (diff / 60000) ++ "m " ++ toString ((diff % 60000) / 1000) ++ "s"

/-- `time.ts` `isSubmissionAfterStart`: the start timestamp (milliseconds) is
floored to epoch seconds with `Math.floor(getTime() / 1000)` and compared
with `>=` against the submission creation time (epoch seconds). -/
def isSubmissionAfterStart (submissionTime : Nat) (startedAtMs : Nat) : Bool :=
  startedAtMs / 1000 ≤ submissionTime

/-- Embedding of the JavaScript `.toUpperCase()` on the ASCII strings handled
here: upper-case every character. -/
def upperStr (s : String) : String :=
  String.mk (s.data.map Char.toUpper)

/-- The predicate of the first `submissions.find` in
`checkCompilationErrorSubmission`: same contest id, case-insensitive index
match, verdict exactly `COMPILATION_ERROR`, and creation time after start. -/
def ceMatch (contestId : Nat) (problemIndex : String) (startedAtMs : Nat)
    (sub : Submission) : Bool :=
  (sub.contestId == contestId
      && upperStr sub.problemIndex == upperStr problemIndex)
    && sub.verdict == some "COMPILATION_ERROR"
    && isSubmissionAfterStart sub.creationTimeSeconds startedAtMs

/-- The predicate of the second `submissions.find`: any submission to the
same problem (case-insensitive index) inside the time window, regardless of
verdict. -/
def problemWindowMatch (contestId : Nat) (problemIndex : String)
    (startedAtMs : Nat) (sub : Submission) : Bool :=
  sub.contestId == contestId
    && upperStr sub.problemIndex == upperStr problemIndex
    && isSubmissionAfterStart sub.creationTimeSeconds startedAtMs

/-- Rendering of an optional verdict inside a template literal: JavaScript
prints `undefined` for a missing field. -/
def verdictString : Option String → String
  | some v => v
  | none => "undefined"

/-- `codeforces.service.ts` `checkCompilationErrorSubmission`: fetches the 20
most recent submissions (`fetchRecent` abstracts `getRecentSubmissions`),
looks for a matching Compilation Error submission, otherwise for any
submission to the problem in the window, and reports accordingly. -/
def checkCompilationErrorSubmission (fetchRecent : Nat → List Submission)
    (contestId : Nat) (problemIndex : String) (startedAtMs : Nat) :
    VerificationResult :=
  match (fetchRecent 20).find? (fun sub => ceMatch contestId problemIndex startedAtMs sub) with
  | some matchingSubmission =>
      { verified := true
        submission := some matchingSubmission
        message := "Compilation Error submission found!" }
  | none =>
    match (fetchRecent 20).find? (fun sub => problemWindowMatch contestId problemIndex startedAtMs sub) with
    | some anyProblemSubmission =>
        { verified := false
          submission := some anyProblemSubmission
          message := "Found submission but verdict was \"" ++
            verdictString anyProblemSubmission.verdict ++
            "\" instead of \"COMPILATION_ERROR\"" }
    | none =>
        { verified := false
          submission := none
          message := "No submission found to the specified problem" }

/-- Claim C1: the evaluation returns `verified = true` if and only if, among
the 20 most recent submissions fetched for the username, some submission has
the challenge contest id, a case-insensitively equal problem index, verdict
exactly `COMPILATION_ERROR`, and creation time (epoch seconds) at least the
session start converted to epoch seconds. -/
theorem checkCompilationErrorSubmission_verified_iff
    (fetchRecent : Nat → List Submission) (contestId : Nat)
    (problemIndex : String) (startedAtMs : Nat) :
    (checkCompilationErrorSubmission fetchRecent contestId problemIndex
        startedAtMs).verified = true ↔
      ∃ sub ∈ fetchRecent 20,
        sub.contestId = contestId ∧
        upperStr sub.problemIndex = upperStr problemIndex ∧
        sub.verdict = some "COMPILATION_ERROR" ∧
        startedAtMs / 1000 ≤ sub.creationTimeSeconds := by
  constructor
  · intro h
    cases hfind : (fetchRecent 20).find?
        (fun sub => ceMatch contestId problemIndex startedAtMs sub) with
    | none =>
      exfalso
      cases hfind2 : (fetchRecent 20).find?
          (fun sub => problemWindowMatch contestId problemIndex startedAtMs sub) with
      | none => simp [checkCompilationErrorSubmission, hfind, hfind2] at h
      | some s => simp [checkCompilationErrorSubmission, hfind, hfind2] at h
    | some s =>
      refine ⟨s, List.mem_of_find?_eq_some hfind, ?_⟩
      have hs := List.find?_some hfind
      simp only [ceMatch, isSubmissionAfterStart, Bool.and_eq_true, beq_iff_eq,
        decide_eq_true_eq] at hs
      exact ⟨hs.1.1.1, hs.1.1.2, hs.1.2, hs.2⟩
  · rintro ⟨sub, hmem, h1, h2, h3, h4⟩
    have hp : ceMatch contestId problemIndex startedAtMs sub = true := by
      simp only [ceMatch, isSubmissionAfterStart, Bool.and_eq_true, beq_iff_eq,
        decide_eq_true_eq]
      exact ⟨⟨⟨h1, h2⟩, h3⟩, h4⟩
    cases hfind : (fetchRecent 20).find?
        (fun sub => ceMatch contestId problemIndex startedAtMs sub) with
    | none =>
      exfalso
      have := List.find?_eq_none.mp hfind sub hmem
      rw [hp] at this
      simp at this
    | some s => simp [checkCompilationErrorSubmission, hfind]

/-- A Compilation Error submission created at epoch second 10, i.e. half a
second before a session started at epoch millisecond 10500. -/
def staleBoundarySub : Submission :=
  { id := 1
    contestId := 1
    problemIndex := "A"
    problemName := "Theatre Square"
    verdict := some "COMPILATION_ERROR"
    creationTimeSeconds := 10
    programmingLanguage := "GNU C++17" }

/-- Claim C4 as stated is false: a submission whose creation time
(10 seconds = 10000 ms) is strictly earlier than the session start
(10500 ms) still verifies, because the start is floored to whole seconds
before the comparison. -/
theorem checkCompilationErrorSubmission_accepts_stale_boundary :
    (checkCompilationErrorSubmission (fun _ => [staleBoundarySub]) 1 "A"
        10500).verified = true ∧
    (checkCompilationErrorSubmission (fun _ => [staleBoundarySub]) 1 "A"
        10500).submission = some staleBoundarySub ∧
    staleBoundarySub.creationTimeSeconds * 1000 < 10500 := by
  refine ⟨?_, ?_, by decide⟩ <;> rfl

/-- Claim C4 (amended): a submission whose creation time in epoch seconds is
strictly below the session start floored to whole epoch seconds never causes
`Verified`: whenever the evaluation verifies, the submission it verified on
has creation time at least `startedAtMs / 1000`. -/
theorem checkCompilationErrorSubmission_no_preStart_verify
    (fetchRecent : Nat → List Submission) (contestId : Nat)
    (problemIndex : String) (startedAtMs : Nat) (sub : Submission)
    (hver : (checkCompilationErrorSubmission fetchRecent contestId problemIndex
        startedAtMs).verified = true)
    (hsub : (checkCompilationErrorSubmission fetchRecent contestId problemIndex
        startedAtMs).submission = some sub) :
    startedAtMs / 1000 ≤ sub.creationTimeSeconds := by
  cases hfind : (fetchRecent 20).find?
      (fun s => ceMatch contestId problemIndex startedAtMs s) with
  | none =>
    exfalso
    cases hfind2 : (fetchRecent 20).find?
        (fun s => problemWindowMatch contestId problemIndex startedAtMs s) with
    | none => simp [checkCompilationErrorSubmission, hfind, hfind2] at hver
    | some s => simp [checkCompilationErrorSubmission, hfind, hfind2] at hver
  | some s =>
    have hs := List.find?_some hfind
    simp only [ceMatch, isSubmissionAfterStart, Bool.and_eq_true, beq_iff_eq,
      decide_eq_true_eq] at hs
    have hsub' : s = sub := by
      simp [checkCompilationErrorSubmission, hfind] at hsub
      exact hsub
    rw [← hsub']
    exact hs.2

/-- Witness for the amended C4 theorem at a concrete input: a Compilation
Error submission at epoch second 11 against a session started at 10500 ms. -/
def freshSub : Submission :=
  { id := 2
    contestId := 1
    problemIndex := "A"
    problemName := "Theatre Square"
    verdict := some "COMPILATION_ERROR"
    creationTimeSeconds := 11
    programmingLanguage := "GNU C++17" }

theorem checkCompilationErrorSubmission_no_preStart_verify_witness :
    10500 / 1000 ≤ freshSub.creationTimeSeconds :=
  checkCompilationErrorSubmission_no_preStart_verify
    (fun _ => [freshSub]) 1 "A" 10500 freshSub (by rfl) (by rfl)

/-- Claim C5: when no Compilation Error match exists, a same-problem
in-window submission with another verdict yields `verified = false` with a
message naming that verdict, and the absence of any in-window submission to
the problem yields the generic not-found message. -/
theorem checkCompilationErrorSubmission_verdict_specificity
    (fetchRecent : Nat → List Submission) (contestId : Nat)
    (problemIndex : String) (startedAtMs : Nat)
    (hnoCE : ∀ sub ∈ fetchRecent 20,
      ceMatch contestId problemIndex startedAtMs sub = false) :
    ((∃ sub ∈ fetchRecent 20,
        problemWindowMatch contestId problemIndex startedAtMs sub = true) →
      (checkCompilationErrorSubmission fetchRecent contestId problemIndex
          startedAtMs).verified = false ∧
      ∃ sub,
        (checkCompilationErrorSubmission fetchRecent contestId problemIndex
            startedAtMs).submission = some sub ∧
        sub ∈ fetchRecent 20 ∧
        problemWindowMatch contestId problemIndex startedAtMs sub = true ∧
        sub.verdict ≠ some "COMPILATION_ERROR" ∧
        (checkCompilationErrorSubmission fetchRecent contestId problemIndex
            startedAtMs).message =
          "Found submission but verdict was \"" ++ verdictString sub.verdict ++
            "\" instead of \"COMPILATION_ERROR\"") ∧
    ((∀ sub ∈ fetchRecent 20,
        problemWindowMatch contestId problemIndex startedAtMs sub = false) →
      checkCompilationErrorSubmission fetchRecent contestId problemIndex
          startedAtMs =
        { verified := false
          submission := none
          message := "No submission found to the specified problem" }) := by
  have hfind : (fetchRecent 20).find?
      (fun s => ceMatch contestId problemIndex startedAtMs s) = none := by
    apply List.find?_eq_none.mpr
    intro x hx
    simp [hnoCE x hx]
  constructor
  · rintro ⟨sub, hmem, hwin⟩
    cases hfind2 : (fetchRecent 20).find?
        (fun s => problemWindowMatch contestId problemIndex startedAtMs s) with
    | none =>
      exfalso
      have := List.find?_eq_none.mp hfind2 sub hmem
      rw [hwin] at this
      simp at this
    | some s =>
      have hsmem := List.mem_of_find?_eq_some hfind2
      have hsp := List.find?_some hfind2
      have hsce := hnoCE s hsmem
      have hsverdict : s.verdict ≠ some "COMPILATION_ERROR" := by
        intro hv
        have hce : ceMatch contestId problemIndex startedAtMs s = true := by
          have hw := hsp
          simp only [problemWindowMatch, Bool.and_eq_true, beq_iff_eq] at hw
          simp only [ceMatch, Bool.and_eq_true, beq_iff_eq]
          exact ⟨⟨hw.1, hv⟩, hw.2⟩
        rw [hce] at hsce
        simp at hsce
      refine ⟨by simp [checkCompilationErrorSubmission, hfind, hfind2],
        s, by simp [checkCompilationErrorSubmission, hfind, hfind2],
        hsmem, hsp, hsverdict,
        by simp [checkCompilationErrorSubmission, hfind, hfind2]⟩
  · intro hnone
    have hfind2 : (fetchRecent 20).find?
        (fun s => problemWindowMatch contestId problemIndex startedAtMs s) = none := by
      apply List.find?_eq_none.mpr
      intro x hx
      simp [hnone x hx]
    simp [checkCompilationErrorSubmission, hfind, hfind2]

/-- A same-problem in-window submission whose verdict is `WRONG_ANSWER`. -/
def wrongAnswerSub : Submission :=
  { id := 3
    contestId := 1
    problemIndex := "A"
    problemName := "Theatre Square"
    verdict := some "WRONG_ANSWER"
    creationTimeSeconds := 11
    programmingLanguage := "GNU C++17" }

theorem checkCompilationErrorSubmission_verdict_specificity_witness :
    (checkCompilationErrorSubmission (fun _ => [wrongAnswerSub]) 1 "A"
        10000).verified = false :=
  ((checkCompilationErrorSubmission_verdict_specificity
      (fun _ => [wrongAnswerSub]) 1 "A" 10000
      (by intro sub hsub; simp at hsub; subst hsub; rfl)).1
    ⟨wrongAnswerSub, by simp, by rfl⟩).1

/-- Digits-to-number conversion performed by `parseInt` on the digit prefix
matched by the regular expression. -/
def natFromDigits (ds : List Char) : Nat :=
  ds.foldl (fun n c => n * 10 + (c.toNat - 48)) 0

/-- `verify.ts` `parseCodeforcesProblemId`: match the problem id against
`^(\d+)([A-Za-z]\d*)$`, returning the numeric contest id and the upper-cased
index, or throwing on a malformed id. -/
def parseCodeforcesProblemId (problemId : String) :
    Except String (Nat × String) :=
  let chars := problemId.data
  let digits := chars.takeWhile (fun c => c.isDigit)
  match chars.dropWhile (fun c => c.isDigit) with
  | [] => .error ("Invalid problem ID format: " ++ problemId)
  | c :: tail =>
    if !digits.isEmpty && c.isAlpha && tail.all (fun d => d.isDigit) then
      .ok (natFromDigits digits, upperStr (String.mk (c :: tail)))
    else
      .error ("Invalid problem ID format: " ++ problemId)

/-- Row of the `pending_verifications` table (`PendingVerification` in
`types.ts`): `started_at` is nullable in the row type, `expires_at` is
required.  Timestamps are epoch milliseconds. -/
structure PendingVerification where
  id : String
  discord_user_id : String
  guild_id : String
  username : String
  problem_id : String
  problem_url : String
  problem_name : Option String
  started_at : Option Nat
  expires_at : Nat
deriving DecidableEq

/-- The observable outcome of one iteration of the `/verify` loop for one
pending session: whether the session row was deleted, whether a success entry
was pushed, and the entry message and remaining-time field. -/
structure VerifyStepResult where
  deleted : Bool
  success : Bool
  message : String
  timeRemaining : Option String
deriving DecidableEq

/-- One iteration of the per-session loop in `verify.ts` `execute`.  The
`check` oracle abstracts `codeforcesService.checkCompilationErrorSubmission`
(username, contest id, index, start timestamp); the `persist` oracle
abstracts the `createLinkedAccount` / `deletePendingVerification` /
`assignVerificationRoles` block, whose failure is caught separately.  The
best-effort rank fetch does not influence any modelled field and is omitted. -/
def processPending (nowMs : Nat)
    (check : String → Nat → String → Nat → Except String VerificationResult)
    (persist : Except String Unit)
    (pending : PendingVerification) : VerifyStepResult :=
  if isExpired nowMs pending.expires_at then
    { deleted := true
      success := false
      message := "Verification expired. Please start a new verification with `/link`."
      timeRemaining := none }
  else
    match (do
        let parsed ← parseCodeforcesProblemId pending.problem_id
        check pending.username parsed.1 parsed.2
          (pending.started_at.getD nowMs) :
        Except String VerificationResult) with
    | .error e =>
      { deleted := false
        success := false
        message := "Failed to check submissions: " ++ e
        timeRemaining := none }
    | .ok verificationResult =>
      if verificationResult.verified then
        match persist with
        | .ok _ =>
          { deleted := true
            success := true
            message := "Account verified successfully!"
            timeRemaining := none }
        | .error e =>
          { deleted := false
            success := false
            message := "Verification successful but failed to save: " ++ e
            timeRemaining := none }
      else
        { deleted := false
          success := false
          message := verificationResult.message
          timeRemaining := some (getRemainingTime nowMs pending.expires_at) }

/-- Claim C2: a pending session whose `expires_at` is strictly in the past is
deleted and reported as expired, independently of the submission-check and
persistence oracles (no submission check is consulted); and `isExpired`
holds exactly when the current time is strictly greater than the expiry. -/
theorem processPending_expired
    (nowMs : Nat)
    (check : String → Nat → String → Nat → Except String VerificationResult)
    (persist : Except String Unit)
    (pending : PendingVerification)
    (h : pending.expires_at < nowMs) :
    processPending nowMs check persist pending =
      { deleted := true
        success := false
        message := "Verification expired. Please start a new verification with `/link`."
        timeRemaining := none } ∧
    (∀ t e : Nat, isExpired t e = true ↔ e < t) := by
  constructor
  · simp [processPending, isExpired, h]
  · intro t e
    simp [isExpired]

/-- Witness for the C2 theorem at a concrete expired session. -/
def expiredPending : PendingVerification :=
  { id := "s1"
    discord_user_id := "u1"
    guild_id := "g1"
    username := "alice"
    problem_id := "1A"
    problem_url := "https://codeforces.com/problemset/problem/1/A"
    problem_name := some "Theatre Square"
    started_at := some 0
    expires_at := 5 }

theorem processPending_expired_witness :
    processPending 6 (fun _ _ _ _ => Except.error "unreachable") (.ok ())
        expiredPending =
      { deleted := true
        success := false
        message := "Verification expired. Please start a new verification with `/link`."
        timeRemaining := none } :=
  (processPending_expired 6 (fun _ _ _ _ => Except.error "unreachable") (.ok ())
    expiredPending (by decide)).1

/-- The composite session key used by the delete filter in
`createPendingVerification`: discord user id, guild id and username. -/
def sameSessionKey (a b : PendingVerification) : Bool :=
  a.discord_user_id == b.discord_user_id
    && a.guild_id == b.guild_id
    && a.username == b.username

/-- `supabase.ts` `createPendingVerification` acting on the
`pending_verifications` table modelled as a list of rows: first delete every
row with the same (discord_user_id, guild_id, username) key, then insert the
new row. -/
def createPendingVerification (store : List PendingVerification)
    (verification : PendingVerification) : List PendingVerification :=
  (store.filter (fun s => !(sameSessionKey s verification))) ++ [verification]

/-- Claim C3: after a creation call, the new session is the unique row for
its key; and after any sequence of creation calls the sole survivor for the
key of the last call is the session issued by that last call. -/
theorem createPendingVerification_unique
    (store ws : List PendingVerification) (v : PendingVerification) :
    (createPendingVerification store v).filter
        (fun s => sameSessionKey s v) = [v] ∧
    ((ws ++ [v]).foldl createPendingVerification store).filter
        (fun s => sameSessionKey s v) = [v] := by
  have key_refl : sameSessionKey v v = true := by
    simp [sameSessionKey]
  have main : ∀ st : List PendingVerification,
      (createPendingVerification st v).filter
        (fun s => sameSessionKey s v) = [v] := by
    intro st
    have hnil : ∀ l : List PendingVerification,
        (l.filter (fun s => !(sameSessionKey s v))).filter
          (fun s => sameSessionKey s v) = [] := by
      intro l
      induction l with
      | nil => rfl
      | cons a t ih =>
        by_cases hk : sameSessionKey a v = true
        · simp [List.filter_cons, hk, ih]
        · simp only [Bool.not_eq_true] at hk
          simp [List.filter_cons, hk, ih]
    simp [createPendingVerification, List.filter_append, hnil, key_refl]
  refine ⟨main store, ?_⟩
  rw [List.foldl_append, List.foldl_cons, List.foldl_nil]
  exact main _

/-- An entry of the Codeforces problemset payload
(`CodeforcesProblem` in `randomProblem.ts`): `rating` is optional. -/
structure CodeforcesProblem where
  contestId : Nat
  index : String
  name : String
  rating : Option Int
deriving DecidableEq

/-- The record returned by `getRandomCodeforcesProblem`
(`RandomProblem` in `randomProblem.ts`). -/
structure RandomProblem where
  id : String
  contestId : Nat
  index : String
  name : String
  rating : Int
  url : String
deriving DecidableEq

def CF_MIN_RATING : Int := 1500

def CF_MAX_RATING : Int := 2500

/-- Problem-pool cache time-to-live: one hour in milliseconds. -/
def CF_CACHE_DURATION : Nat := 3600000

/-- The difficulty-band filter applied to the fetched problemset: a rating
must be present and lie in `[CF_MIN_RATING, CF_MAX_RATING]`. -/
def inRatingBand : Option Int → Bool
  | some r => CF_MIN_RATING ≤ r && r ≤ CF_MAX_RATING
  | none => false

/-- `randomProblem.ts` `fetchCodeforcesProblems`.  The module-level mutable
pair `(cfProblemsCache, cfCacheTimestamp)` is passed in and returned
explicitly as `state`; `upstream` abstracts the axios call, an `error` value
standing for a transport failure, a timeout, or a non-OK API status.  Returns
the served problem list together with the new cache state, or propagates the
fetch failure when no cached snapshot exists. -/
def fetchCodeforcesProblems
    (state : Option (List CodeforcesProblem × Nat)) (nowMs : Nat)
    (upstream : Except String (List CodeforcesProblem)) :
    Except String (List CodeforcesProblem × Option (List CodeforcesProblem × Nat)) :=
  match state with
  | some (cached, ts) =>
    if nowMs - ts < CF_CACHE_DURATION then
      .ok (cached, some (cached, ts))
    else
      match upstream with
      | .ok problems =>
        let filtered := problems.filter (fun problem => inRatingBand problem.rating)
        .ok (filtered, some (filtered, nowMs))
      | .error _ => .ok (cached, some (cached, ts))
  | none =>
    match upstream with
    | .ok problems =>
      let filtered := problems.filter (fun problem => inRatingBand problem.rating)
      .ok (filtered, some (filtered, nowMs))
    | .error e => .error e

/-- `randomProblem.ts` `getRandomCodeforcesProblem`.  `randomIndex` abstracts
`Math.floor(Math.random() * problems.length)`; an out-of-range index hits the
`!problem` guard exactly as the undefined array access would. -/
def getRandomCodeforcesProblem
    (state : Option (List CodeforcesProblem × Nat)) (nowMs : Nat)
    (upstream : Except String (List CodeforcesProblem))
    (randomIndex : Nat) : Except String RandomProblem :=
  match fetchCodeforcesProblems state nowMs upstream with
  | .error e => .error e
  | .ok (problems, _) =>
    if problems.isEmpty then
      .error "No Codeforces problems available"
    else
      match problems[randomIndex]? with
      | none => .error "Failed to select a random problem"
      | some problem =>
        .ok { id := toString problem.contestId ++ problem.index
              contestId := problem.contestId
              index := problem.index
              name := problem.name
              rating := problem.rating.getD 0
              url := "https://codeforces.com/problemset/problem/" ++
                toString problem.contestId ++ "/" ++ problem.index }

/-- A pool problem whose index is lower-case. -/
def lowerIndexProblem : CodeforcesProblem :=
  { contestId := 1500
    index := "a"
    name := "Going Home"
    rating := some 1500 }

/-- Claim C6 as stated is false: for a pool problem with index `a`, the
returned id is the concatenation with the index kept as-is, `1500a`, not the
upper-cased `1500A`. -/
theorem getRandomCodeforcesProblem_id_not_uppercased :
    getRandomCodeforcesProblem none 0 (.ok [lowerIndexProblem]) 0 =
      .ok { id := "1500a"
            contestId := 1500
            index := "a"
            name := "Going Home"
            rating := 1500
            url := "https://codeforces.com/problemset/problem/1500/a" } ∧
    "1500a" ≠ "1500" ++ upperStr "a" := by
  exact ⟨by rfl, by decide⟩

/-- Claim C6 (amended): the canonical problem id is the concatenation of the
contest id and the index exactly as stored in the pool (case preserved, no
upper-casing), and the URL is deterministic from contest id and index. -/
theorem getRandomCodeforcesProblem_id_url
    (state : Option (List CodeforcesProblem × Nat)) (nowMs : Nat)
    (upstream : Except String (List CodeforcesProblem))
    (randomIndex : Nat) (r : RandomProblem)
    (h : getRandomCodeforcesProblem state nowMs upstream randomIndex = .ok r) :
    r.id = toString r.contestId ++ r.index ∧
    r.url = "https://codeforces.com/problemset/problem/" ++
      toString r.contestId ++ "/" ++ r.index := by
  unfold getRandomCodeforcesProblem at h
  cases hf : fetchCodeforcesProblems state nowMs upstream with
  | error e => rw [hf] at h; exact absurd h (by simp)
  | ok pair =>
    rw [hf] at h
    by_cases hempty : pair.1.isEmpty
    · simp [hempty] at h
    · simp only [hempty] at h
      cases hget : pair.1[randomIndex]? with
      | none => simp [hget] at h
      | some problem =>
        simp only [hget, Bool.false_eq_true, if_false] at h
        cases h
        exact ⟨rfl, rfl⟩

/-- Witness for the amended C6 theorem at a concrete pool. -/
theorem getRandomCodeforcesProblem_id_url_witness :
    let r := { id := "1500a"
               contestId := 1500
               index := "a"
               name := "Going Home"
               rating := 1500
               url := "https://codeforces.com/problemset/problem/1500/a" :
               RandomProblem }
    r.id = toString r.contestId ++ r.index ∧
    r.url = "https://codeforces.com/problemset/problem/" ++
      toString r.contestId ++ "/" ++ r.index :=
  getRandomCodeforcesProblem_id_url none 0 (.ok [lowerIndexProblem]) 0 _
    (by rfl)

/-- Claim C7: the issuer errors out (never substitutes a default problem)
when the pool is unfetchable with no snapshot or when the served pool is
empty; a refresh failure with an existing snapshot serves that snapshot and
keeps it; and a fetch failure propagates exactly when no snapshot exists. -/
theorem problemPool_failure_policy :
    (∀ (nowMs randomIndex : Nat) (e : String),
      getRandomCodeforcesProblem none nowMs (.error e) randomIndex =
        .error e) ∧
    (∀ (state : Option (List CodeforcesProblem × Nat)) (nowMs : Nat)
        (upstream : Except String (List CodeforcesProblem))
        (newState : Option (List CodeforcesProblem × Nat))
        (randomIndex : Nat),
      fetchCodeforcesProblems state nowMs upstream = .ok ([], newState) →
      getRandomCodeforcesProblem state nowMs upstream randomIndex =
        .error "No Codeforces problems available") ∧
    (∀ (cached : List CodeforcesProblem) (ts nowMs : Nat) (e : String),
      fetchCodeforcesProblems (some (cached, ts)) nowMs (.error e) =
        .ok (cached, some (cached, ts))) ∧
    (∀ (nowMs : Nat) (e : String),
      fetchCodeforcesProblems none nowMs (.error e) = .error e) := by
  refine ⟨?_, ?_, ?_, ?_⟩
  · intro nowMs randomIndex e
    rfl
  · intro state nowMs upstream newState randomIndex h
    unfold getRandomCodeforcesProblem
    rw [h]
    rfl
  · intro cached ts nowMs e
    unfold fetchCodeforcesProblems
    by_cases hfresh : nowMs - ts < CF_CACHE_DURATION <;> simp [hfresh]
  · intro nowMs e
    rfl

/-- Witness for the C7 theorem: the hypothesis-bearing conjunct applied to a
successfully fetched but empty pool. -/
theorem problemPool_failure_policy_witness :
    getRandomCodeforcesProblem none 0 (.ok []) 0 =
      .error "No Codeforces problems available" :=
  problemPool_failure_policy.2.1 none 0 (.ok []) (some ([], 0)) 0 (by rfl)

/-- Embedding of the JavaScript `.toLowerCase()` on the ASCII strings handled
here: lower-case every character. -/
def lowerStr (s : String) : String :=
  String.mk (s.data.map Char.toLower)

/-- Row of the `guild_config` table as consumed by the role manager:
`rank_role_map` is the sparse normalized-rank-to-role-id mapping, kept here
as an association list (JavaScript object keys are unique). -/
structure GuildConfigRow where
  verified_role_id : Option String
  rank_role_map : Option (List (String × String))
deriving DecidableEq

/-- Property access `rankRoleMap[normalizedRank]` on the mapping object. -/
def lookupRank (rankRoleMap : List (String × String)) (normalizedRank : String) :
    Option String :=
  (rankRoleMap.find? (fun p => p.1 == normalizedRank)).map (fun p => p.2)

/-- `Object.values(rankRoleMap)`: the configured rank-role id set. -/
def rankRoleValues (rankRoleMap : List (String × String)) : List String :=
  rankRoleMap.map (fun p => p.2)

/-- Environment of the role manager.  `getGuildConfig` may throw (database
error); `guildRoles` is the guild role cache (`member.guild.roles.cache`);
`addOk` and `removeOk` tell whether the Discord role add / remove API calls
resolve or reject. -/
structure RoleEnv where
  getGuildConfig : String → Except String (Option GuildConfigRow)
  guildRoles : List String
  addOk : Bool
  removeOk : Bool

/-- `roleManager.ts` `assignVerifiedRole`: the whole body sits inside
`try/catch`, so every failure path returns `false` and the function never
throws.  The member role state is threaded as `memberRoles` and returned. -/
def assignVerifiedRole (env : RoleEnv) (memberRoles : List String)
    (guildId : String) : Bool × List String :=
  match env.getGuildConfig guildId with
  | .error _ => (false, memberRoles)
  | .ok none => (false, memberRoles)
  | .ok (some config) =>
    match config.verified_role_id with
    | none => (false, memberRoles)
    | some roleId =>
      if !(env.guildRoles.contains roleId) then (false, memberRoles)
      else if memberRoles.contains roleId then (true, memberRoles)
      else if env.addOk then (true, memberRoles ++ [roleId])
      else (false, memberRoles)

/-- `roleManager.ts` `assignRankRole`: guards for a missing rank, missing
configuration, unmapped rank and missing role; then removes every other
configured rank role the member holds and adds the target role if not
already held.  The whole body sits inside `try/catch`, so every failure
(including a rejected remove or add call) surfaces as `false`. -/
def assignRankRole (env : RoleEnv) (memberRoles : List String)
    (guildId rank : String) : Bool × List String :=
  if rank == "" then (false, memberRoles)
  else
    match env.getGuildConfig guildId with
    | .error _ => (false, memberRoles)
    | .ok none => (false, memberRoles)
    | .ok (some config) =>
      match config.rank_role_map with
      | none => (false, memberRoles)
      | some rankRoleMap =>
        match lookupRank rankRoleMap (lowerStr rank) with
        | none => (false, memberRoles)
        | some roleId =>
          if !(env.guildRoles.contains roleId) then (false, memberRoles)
          else
            let allRankRoleIds := rankRoleValues rankRoleMap
            let rolesToRemove := memberRoles.filter
              (fun r => allRankRoleIds.contains r && r != roleId)
            if !rolesToRemove.isEmpty && !env.removeOk then (false, memberRoles)
            else
              let afterRemove := memberRoles.filter
                (fun r => !(allRankRoleIds.contains r && r != roleId))
              if !(memberRoles.contains roleId) then
                if env.addOk then (true, afterRemove ++ [roleId])
                else (false, afterRemove)
              else (true, afterRemove)

/-- Result record of `assignVerificationRoles`
(`RoleAssignmentResults` in `roleManager.ts`). -/
structure RoleAssignmentResults where
  verifiedRole : Bool
  rankRole : Bool
  errors : List String
deriving DecidableEq

/-- `roleManager.ts` `assignVerificationRoles`: runs the two halves in
sequence.  Each half is a total function (its body is fully `try/catch`
wrapped), so the error-collecting `catch` branches of this function are
unreachable and the `errors` list stays empty. -/
def assignVerificationRoles (env : RoleEnv) (memberRoles : List String)
    (guildId : String) (rank : Option String) :
    RoleAssignmentResults × List String :=
  let verified := assignVerifiedRole env memberRoles guildId
  match rank with
  | some r =>
    let ranked := assignRankRole env verified.2 guildId r
    ({ verifiedRole := verified.1, rankRole := ranked.1, errors := [] },
      ranked.2)
  | none =>
    ({ verifiedRole := verified.1, rankRole := false, errors := [] },
      verified.2)

/-- Claim C10: `assignVerificationRoles` always returns (it is a total
function because both halves catch every internal exception) and its
`errors` list is empty for every environment, member state and rank. -/
theorem assignVerificationRoles_errors_empty (env : RoleEnv)
    (memberRoles : List String) (guildId : String) (rank : Option String) :
    (assignVerificationRoles env memberRoles guildId rank).1.errors = [] := by
  cases rank <;> rfl

/-- A role id produced by `lookupRank` is one of the configured rank-role
values. -/
theorem lookupRank_mem_values (rankRoleMap : List (String × String))
    (normalizedRank roleId : String)
    (h : lookupRank rankRoleMap normalizedRank = some roleId) :
    roleId ∈ rankRoleValues rankRoleMap := by
  unfold lookupRank at h
  cases hfind : rankRoleMap.find? (fun p => p.1 == normalizedRank) with
  | none => rw [hfind] at h; simp at h
  | some p =>
    rw [hfind] at h
    simp at h
    have hmem := List.mem_of_find?_eq_some hfind
    rw [rankRoleValues, ← h]
    exact List.mem_map_of_mem _ hmem

/-- Claim C8: after a successful `assignRankRole` call for a mapped rank, the
member holds exactly one role from the configured rank-role set — the target
role — and if the target was already held, nothing new was added (the final
role list is contained in the original). -/
theorem assignRankRole_exclusive
    (env : RoleEnv) (memberRoles : List String) (guildId rank : String)
    (config : GuildConfigRow) (rankRoleMap : List (String × String))
    (roleId : String) (final : List String)
    (hconfig : env.getGuildConfig guildId = .ok (some config))
    (hmap : config.rank_role_map = some rankRoleMap)
    (hlookup : lookupRank rankRoleMap (lowerStr rank) = some roleId)
    (hcall : assignRankRole env memberRoles guildId rank = (true, final)) :
    (∀ r, (r ∈ final ∧ r ∈ rankRoleValues rankRoleMap) ↔ r = roleId) ∧
    (roleId ∈ memberRoles → ∀ r ∈ final, r ∈ memberRoles) := by
  have hval : roleId ∈ rankRoleValues rankRoleMap :=
    lookupRank_mem_values rankRoleMap (lowerStr rank) roleId hlookup
  unfold assignRankRole at hcall
  by_cases hrank : (rank == "") = true
  · simp [hrank] at hcall
  · simp only [Bool.not_eq_true] at hrank
    simp only [hrank, Bool.false_eq_true, if_false, hconfig, hmap, hlookup] at hcall
    by_cases hguild : env.guildRoles.contains roleId = true
    · simp only [hguild, Bool.not_true, Bool.false_eq_true, if_false] at hcall
      by_cases hremove :
          (!(memberRoles.filter
              (fun r => (rankRoleValues rankRoleMap).contains r && r != roleId)).isEmpty
            && !env.removeOk) = true
      · simp only [hremove, if_true] at hcall
        simp at hcall
      · simp only [Bool.not_eq_true] at hremove
        simp only [hremove, Bool.false_eq_true, if_false] at hcall
        by_cases hheld : memberRoles.contains roleId = true
        · simp only [hheld, Bool.not_true, Bool.false_eq_true, if_false] at hcall
          have hfinal : final = memberRoles.filter
              (fun r => !((rankRoleValues rankRoleMap).contains r && r != roleId)) := by
            have h2 := hcall
            simp only [Prod.mk.injEq] at h2
            exact h2.2.symm
          have hmemHeld : roleId ∈ memberRoles := by
            simpa using hheld
          subst hfinal
          constructor
          · intro r
            constructor
            · rintro ⟨hrf, hrv⟩
              have h2 := (List.mem_filter.mp hrf).2
              simp at h2
              rcases h2 with h2 | h2
              · exact absurd hrv h2
              · exact h2
            · rintro rfl
              refine ⟨List.mem_filter.mpr ⟨hmemHeld, ?_⟩, hval⟩
              simp
          · intro _ r hr
            exact List.mem_of_mem_filter hr
        · simp only [Bool.not_eq_true] at hheld
          simp only [hheld, Bool.not_false, if_true] at hcall
          by_cases hadd : env.addOk = true
          · simp only [hadd, if_true] at hcall
            have hfinal : final = memberRoles.filter
                (fun r => !((rankRoleValues rankRoleMap).contains r && r != roleId))
                  ++ [roleId] := by
              have h2 := hcall
              simp only [Prod.mk.injEq] at h2
              exact h2.2.symm
            have hnotHeld : roleId ∉ memberRoles := by
              simpa using hheld
            subst hfinal
            constructor
            · intro r
              constructor
              · rintro ⟨hrf, hrv⟩
                rcases List.mem_append.mp hrf with hr | hr
                · have h2 := (List.mem_filter.mp hr).2
                  simp at h2
                  rcases h2 with h2 | h2
                  · exact absurd hrv h2
                  · exact h2
                · simpa using hr
              · rintro rfl
                exact ⟨List.mem_append.mpr (Or.inr (by simp)), hval⟩
            · intro hmem
              exact absurd hmem hnotHeld
          · simp only [Bool.not_eq_true] at hadd
            simp only [hadd, Bool.false_eq_true, if_false] at hcall
            simp at hcall
    · simp only [Bool.not_eq_true] at hguild
      simp only [hguild, Bool.not_false, if_true] at hcall
      simp at hcall

/-- Concrete configuration for the C8 witness: two configured rank roles. -/
def exclusivityGuildConfig : GuildConfigRow :=
  { verified_role_id := some "V"
    rank_role_map := some [("expert", "R1"), ("master", "R2")] }

/-- Concrete environment for the C8 witness. -/
def exclusivityEnv : RoleEnv :=
  { getGuildConfig := fun _ => .ok (some exclusivityGuildConfig)
    guildRoles := ["V", "R1", "R2"]
    addOk := true
    removeOk := true }

theorem assignRankRole_exclusive_witness :
    (∀ r, (r ∈ (["X", "R1"] : List String) ∧
        r ∈ rankRoleValues [("expert", "R1"), ("master", "R2")]) ↔ r = "R1") ∧
    (("R1" : String) ∈ (["R2", "X"] : List String) →
      ∀ r ∈ (["X", "R1"] : List String), r ∈ (["R2", "X"] : List String)) :=
  assignRankRole_exclusive exclusivityEnv ["R2", "X"] "g" "Expert"
    exclusivityGuildConfig [("expert", "R1"), ("master", "R2")] "R1" ["X", "R1"]
    (by rfl) (by rfl) (by decide) (by decide)

/-- Row of the `linked_accounts` table as consumed by `syncAllRoles`. -/
structure LinkedAccount where
  id : String
  discord_user_id : String
  guild_id : String
  username : String
  rank : Option String
deriving DecidableEq

/-- `SyncResults` in `roleSync.ts`. -/
structure SyncResults where
  totalProcessed : Nat
  rolesUpdated : Nat
  errors : List String
  skipped : Nat
deriving DecidableEq

/-- Failure mode of `guild.members.fetch`: the Discord `Unknown Member`
error (code 10007) is handled as a benign skip, anything else is rethrown. -/
inductive MemberFetchError where
  | notFound
  | other (msg : String)

/-- Environment of the reconciliation batch.  `getGuildConfig` returns the
config row's `rank_role_map` field (outer `none`: no row; inner `none`: null
field); `getUserInfo` returns the optional `rank` field of the Codeforces
user or throws; `updateRank` persists a rank change or throws;
`assignRankRoleOk` is the (total, never-throwing) `assignRankRole` outcome
for (member, guild, rank). -/
structure SyncEnv where
  getGuildConfig : String → Option (Option (List (String × String)))
  guildInCache : String → Bool
  getUserInfo : String → Except String (Option String)
  updateRank : String → String → Except String Unit
  fetchMember : String → String → Except MemberFetchError Unit
  assignRankRoleOk : String → String → String → Bool

/-- The `try` block of the per-account loop in `syncAllRoles`: fetch the
current rank, compare case-insensitively with the stored rank, persist and
reassign on change; returns whether `rolesUpdated` is incremented, or the
caught failure. -/
def syncAccount (env : SyncEnv) (guildId : String) (account : LinkedAccount) :
    Except String Bool :=
  match env.getUserInfo account.username with
  | .error e => .error e
  | .ok rankField =>
    let currentRank := rankField.map lowerStr
    let storedRank := account.rank.map lowerStr
    match currentRank with
    | none => .ok false
    | some c =>
      if c == "" then .ok false
      else if some c == storedRank then .ok false
      else
        match env.updateRank account.id c with
        | .error e => .error e
        | .ok _ =>
          match env.fetchMember guildId account.discord_user_id with
          | .error .notFound => .ok false
          | .error (.other e) => .error e
          | .ok _ => .ok (env.assignRankRoleOk account.discord_user_id guildId c)

/-- The error string pushed for a failing account: names the account's
username and the guild id. -/
def accountSyncError (guildId : String) (account : LinkedAccount)
    (e : String) : String :=
  "Failed to sync " ++ account.username ++ " in guild " ++ guildId ++ ": " ++ e

/-- One iteration of the per-account loop: increment `totalProcessed`, then
either count a role update, do nothing, or record the caught failure. -/
def syncStep (env : SyncEnv) (guildId : String) (res : SyncResults)
    (account : LinkedAccount) : SyncResults :=
  let res1 := { res with totalProcessed := res.totalProcessed + 1 }
  match syncAccount env guildId account with
  | .ok true => { res1 with rolesUpdated := res1.rolesUpdated + 1 }
  | .ok false => res1
  | .error e =>
    { res1 with errors := res1.errors ++ [accountSyncError guildId account e] }

/-- A guild is processed (rather than skipped) exactly when its config row
exists with a non-empty `rank_role_map` and the guild is in the client
cache. -/
def guildEligible (env : SyncEnv) (guildId : String) : Bool :=
  (match env.getGuildConfig guildId with
   | some (some rankRoleMap) => !rankRoleMap.isEmpty
   | _ => false) && env.guildInCache guildId

/-- The per-guild body of `syncAllRoles`: skip the whole guild (counting its
accounts) when unconfigured or not cached, otherwise run the account loop. -/
def processGuild (env : SyncEnv) (res : SyncResults) (guildId : String)
    (accounts : List LinkedAccount) : SyncResults :=
  match env.getGuildConfig guildId with
  | none => { res with skipped := res.skipped + accounts.length }
  | some none => { res with skipped := res.skipped + accounts.length }
  | some (some rankRoleMap) =>
    if rankRoleMap.isEmpty then
      { res with skipped := res.skipped + accounts.length }
    else if !(env.guildInCache guildId) then
      { res with skipped := res.skipped + accounts.length }
    else
      accounts.foldl (syncStep env guildId) res

/-- The guild ids in first-appearance order, as produced by inserting into a
JavaScript `Map` while grouping accounts by guild. -/
def guildOrder (accounts : List LinkedAccount) : List String :=
  accounts.foldl
    (fun acc a => if acc.contains a.guild_id then acc else acc ++ [a.guild_id])
    []

/-- `roleSync.ts` `syncAllRoles`: group the accounts by guild (insertion
order), then process each guild in turn, starting from zeroed counters. -/
def syncAllRoles (env : SyncEnv) (accounts : List LinkedAccount) :
    SyncResults :=
  (guildOrder accounts).foldl
    (fun res gid =>
      processGuild env res gid (accounts.filter (fun a => a.guild_id == gid)))
    { totalProcessed := 0, rolesUpdated := 0, errors := [], skipped := 0 }

/-- The failures recorded by the account loop of one guild. -/
def guildSyncErrors (env : SyncEnv) (guildId : String)
    (accounts : List LinkedAccount) : List String :=
  accounts.filterMap (fun a =>
    match syncAccount env guildId a with
    | .error e => some (accountSyncError guildId a e)
    | .ok _ => none)

theorem syncStep_totalProcessed (env : SyncEnv) (guildId : String)
    (res : SyncResults) (account : LinkedAccount) :
    (syncStep env guildId res account).totalProcessed =
      res.totalProcessed + 1 := by
  unfold syncStep
  cases syncAccount env guildId account with
  | error e => rfl
  | ok b => cases b <;> rfl

theorem syncStep_errors (env : SyncEnv) (guildId : String)
    (res : SyncResults) (account : LinkedAccount) :
    (syncStep env guildId res account).errors =
      res.errors ++ (match syncAccount env guildId account with
        | .error e => [accountSyncError guildId account e]
        | .ok _ => []) := by
  unfold syncStep
  cases syncAccount env guildId account with
  | error e => rfl
  | ok b => cases b <;> simp

theorem foldl_syncStep_totalProcessed (env : SyncEnv) (guildId : String)
    (accounts : List LinkedAccount) (res : SyncResults) :
    (accounts.foldl (syncStep env guildId) res).totalProcessed =
      res.totalProcessed + accounts.length := by
  induction accounts generalizing res with
  | nil => simp
  | cons a t ih =>
    rw [List.foldl_cons, ih, syncStep_totalProcessed, List.length_cons]
    omega

theorem foldl_syncStep_errors (env : SyncEnv) (guildId : String)
    (accounts : List LinkedAccount) (res : SyncResults) :
    (accounts.foldl (syncStep env guildId) res).errors =
      res.errors ++ guildSyncErrors env guildId accounts := by
  induction accounts generalizing res with
  | nil => simp [guildSyncErrors]
  | cons a t ih =>
    rw [List.foldl_cons, ih, syncStep_errors]
    unfold guildSyncErrors
    rw [List.filterMap_cons]
    cases syncAccount env guildId a with
    | error e => simp
    | ok b => simp

theorem processGuild_totalProcessed (env : SyncEnv) (res : SyncResults)
    (guildId : String) (accounts : List LinkedAccount) :
    (processGuild env res guildId accounts).totalProcessed =
      res.totalProcessed +
        (if guildEligible env guildId then accounts.length else 0) := by
  unfold processGuild guildEligible
  cases hc : env.getGuildConfig guildId with
  | none => simp
  | some inner =>
    cases inner with
    | none => simp
    | some rankRoleMap =>
      by_cases hempty : rankRoleMap.isEmpty = true
      · simp [hempty]
      · simp only [Bool.not_eq_true] at hempty
        by_cases hcache : env.guildInCache guildId = true
        · simp [hempty, hcache, foldl_syncStep_totalProcessed]
        · simp only [Bool.not_eq_true] at hcache
          simp [hempty, hcache]

theorem processGuild_errors (env : SyncEnv) (res : SyncResults)
    (guildId : String) (accounts : List LinkedAccount) :
    (processGuild env res guildId accounts).errors =
      res.errors ++
        (if guildEligible env guildId
          then guildSyncErrors env guildId accounts else []) := by
  unfold processGuild guildEligible
  cases hc : env.getGuildConfig guildId with
  | none => simp
  | some inner =>
    cases inner with
    | none => simp
    | some rankRoleMap =>
      by_cases hempty : rankRoleMap.isEmpty = true
      · simp [hempty]
      · simp only [Bool.not_eq_true] at hempty
        by_cases hcache : env.guildInCache guildId = true
        · simp [hempty, hcache, foldl_syncStep_errors]
        · simp only [Bool.not_eq_true] at hcache
          simp [hempty, hcache]

theorem syncOuter_totalProcessed (env : SyncEnv)
    (accounts : List LinkedAccount) (gids : List String) (res : SyncResults) :
    (gids.foldl
        (fun res gid =>
          processGuild env res gid
            (accounts.filter (fun a => a.guild_id == gid))) res).totalProcessed =
      res.totalProcessed +
        (gids.map (fun gid =>
          if guildEligible env gid
            then (accounts.filter (fun a => a.guild_id == gid)).length
            else 0)).sum := by
  induction gids generalizing res with
  | nil => simp
  | cons g t ih =>
    rw [List.foldl_cons, ih, processGuild_totalProcessed, List.map_cons,
      List.sum_cons]
    omega

theorem syncOuter_errors (env : SyncEnv)
    (accounts : List LinkedAccount) (gids : List String) (res : SyncResults) :
    (gids.foldl
        (fun res gid =>
          processGuild env res gid
            (accounts.filter (fun a => a.guild_id == gid))) res).errors =
      res.errors ++
        (gids.map (fun gid =>
          if guildEligible env gid
            then guildSyncErrors env gid
              (accounts.filter (fun a => a.guild_id == gid))
            else [])).flatten := by
  induction gids generalizing res with
  | nil => simp
  | cons g t ih =>
    rw [List.foldl_cons, ih, processGuild_errors, List.map_cons, List.flatten]
    simp [List.append_assoc]

theorem foldl_guildOrder_mem (l : List LinkedAccount) (acc : List String)
    (g : String) (h : g ∈ acc ∨ ∃ a ∈ l, a.guild_id = g) :
    g ∈ l.foldl
      (fun acc a =>
        if acc.contains a.guild_id then acc else acc ++ [a.guild_id]) acc := by
  induction l generalizing acc with
  | nil =>
    rcases h with h | ⟨a, ha, _⟩
    · simpa using h
    · simp at ha
  | cons b t ih =>
    rw [List.foldl_cons]
    apply ih
    rcases h with h | ⟨a, ha, hg⟩
    · left
      by_cases hb : acc.contains b.guild_id = true
      · rw [if_pos hb]; exact h
      · rw [if_neg hb]; exact List.mem_append.mpr (Or.inl h)
    · rcases List.mem_cons.mp ha with heq | hat
      · subst heq
        left
        by_cases hb : acc.contains a.guild_id = true
        · rw [if_pos hb]; subst hg; exact List.mem_of_elem_eq_true hb
        · rw [if_neg hb]; subst hg
          exact List.mem_append.mpr (Or.inr (by simp))
      · right
        exact ⟨a, hat, hg⟩

theorem mem_guildOrder (accounts : List LinkedAccount) (a : LinkedAccount)
    (ha : a ∈ accounts) : a.guild_id ∈ guildOrder accounts :=
  foldl_guildOrder_mem accounts [] a.guild_id (Or.inr ⟨a, ha, rfl⟩)

/-- Claim C9: the batch processes and counts every account of every eligible
guild regardless of per-account outcomes (`totalProcessed` is determined by
the account partition alone), and any single-account failure is recorded in
the `errors` list as a message carrying the account's username and guild id
without aborting the batch. -/
theorem syncAllRoles_batch_resilience (env : SyncEnv)
    (accounts : List LinkedAccount) :
    (syncAllRoles env accounts).totalProcessed =
      ((guildOrder accounts).map (fun gid =>
        if guildEligible env gid
          then (accounts.filter (fun a => a.guild_id == gid)).length
          else 0)).sum ∧
    (∀ account ∈ accounts, ∀ e : String,
      guildEligible env account.guild_id = true →
      syncAccount env account.guild_id account = .error e →
      accountSyncError account.guild_id account e ∈
        (syncAllRoles env accounts).errors) := by
  constructor
  · unfold syncAllRoles
    rw [syncOuter_totalProcessed]
    simp
  · intro account hacc e helig herr
    unfold syncAllRoles
    rw [syncOuter_errors]
    refine List.mem_append.mpr (Or.inr ?_)
    apply List.mem_flatten.mpr
    refine ⟨(if guildEligible env account.guild_id
        then guildSyncErrors env account.guild_id
          (accounts.filter (fun a => a.guild_id == account.guild_id))
        else []), ?_, ?_⟩
    · exact List.mem_map_of_mem _ (mem_guildOrder accounts account hacc)
    · rw [if_pos helig]
      unfold guildSyncErrors
      apply List.mem_filterMap.mpr
      refine ⟨account, ?_, ?_⟩
      · exact List.mem_filter.mpr ⟨hacc, by simp⟩
      · rw [herr]

/-- Concrete environment for the C9 witness: fetching user info for `alice`
throws, everything else succeeds with rank `expert`. -/
def resilienceEnv : SyncEnv :=
  { getGuildConfig := fun _ => some (some [("expert", "R1")])
    guildInCache := fun _ => true
    getUserInfo := fun username =>
      if username == "alice" then .error "boom" else .ok (some "expert")
    updateRank := fun _ _ => .ok ()
    fetchMember := fun _ _ => .ok ()
    assignRankRoleOk := fun _ _ _ => true }

def failingAccount : LinkedAccount :=
  { id := "1", discord_user_id := "u1", guild_id := "g1",
    username := "alice", rank := none }

def healthyAccount : LinkedAccount :=
  { id := "2", discord_user_id := "u2", guild_id := "g1",
    username := "bob", rank := none }

theorem syncAllRoles_batch_resilience_witness :
    accountSyncError "g1" failingAccount "boom" ∈
      (syncAllRoles resilienceEnv [failingAccount, healthyAccount]).errors :=
  (syncAllRoles_batch_resilience resilienceEnv
      [failingAccount, healthyAccount]).2
    failingAccount (by simp) "boom" (by rfl) (by rfl)
